import Mathlib

/-!
Verification of the ramfs 9P2000 in-memory file server.

A shallow embedding of `fs.go` (package `ramfs`) and of the parts of the
node/fid/identity layer that `fs.go` uses, together with proofs about the
path allocator, the startup namespace built by `New`, and the local facade
(`Attach` / `Create` / `Open` / `Remove`).

Machine integers: the Go code uses `uint64` for path ids with an explicit
ceiling check (`maxPath = 1<<64 - 1`); we model ids as `Nat` and keep the
ceiling explicit, matching the code's own comparison against `maxPath`.
-/

set_option autoImplicit false

namespace Ramfs

/-- The constant `maxPath = uint64(1<<64 - 1)` from `fs.go`. -/
def maxPath : ℕ := 2 ^ 64 - 1

/-- The fields of `FS` that `newPath`/`delPath` touch under `fs.mu`:
the bump counter `fs.path` and the reclaim set `fs.pathmap
(map[uint64]bool`, used as a set). -/
structure AllocState where
  path : ℕ
  pathmap : Finset ℕ
  deriving DecidableEq

/-- Result of one `newPath` call: an id, or the `perror("out of paths")`
(ResourceExhausted) failure. -/
inductive NewPathResult where
  | ok (id : ℕ)
  | outOfPaths
  deriving DecidableEq

/-- One call of `FS.newPath` (fs.go lines 123-138) as a relation: Go map
iteration order is unspecified, so draining the reclaim set may return any
of its elements.  The three constructors are the three exits of the Go
function, in the order the code checks them: the `range fs.pathmap` loop
(taken iff the map is non-empty), the `fs.path == maxPath` failure, and the
bump `fs.path++`. -/
inductive newPathStep : AllocState → NewPathResult → AllocState → Prop where
  | reclaim (s : AllocState) (x : ℕ) (hx : x ∈ s.pathmap) :
      newPathStep s (.ok x) ⟨s.path, s.pathmap.erase x⟩
  | bump (s : AllocState) (hempty : s.pathmap = ∅) (hne : s.path ≠ maxPath) :
      newPathStep s (.ok s.path) ⟨s.path + 1, s.pathmap⟩
  | exhausted (s : AllocState) (hempty : s.pathmap = ∅) (heq : s.path = maxPath) :
      newPathStep s .outOfPaths s

/-- The function `FS.delPath` (fs.go lines 140-144): unconditionally insert into the
reclaim set. -/
def delPath (s : AllocState) (x : ℕ) : AllocState :=
  ⟨s.path, insert x s.pathmap⟩
/-- The allocator state `New` starts from: `path = uint64(4)` and an empty
`pathmap` (fs.go lines 96-97). -/
def initAlloc : AllocState := ⟨4, ∅⟩

/-- Reachability by an arbitrary sequence of `newPath`/`delPath` calls,
tracking alongside the state the set of live ids: an id is live when it was
returned by some `newPath` call and has not been passed to `delPath` since.
`delPath` takes any argument here, exactly as the Go function does. -/
inductive ReachAny : AllocState → Finset ℕ → Prop where
  | init : ReachAny initAlloc ∅
  | newOk {s : AllocState} {live : Finset ℕ} {x : ℕ} {s' : AllocState} :
      ReachAny s live → newPathStep s (.ok x) s' → ReachAny s' (insert x live)
  | newErr {s : AllocState} {live : Finset ℕ} {s' : AllocState} :
      ReachAny s live → newPathStep s .outOfPaths s' → ReachAny s' live
  | del {s : AllocState} {live : Finset ℕ} (x : ℕ) :
      ReachAny s live → ReachAny (delPath s x) (live.erase x)

/-- Reachability restricted to the call sequences the filesystem actually
produces: `delPath` is only ever passed an id below the current counter
(every id the tree holds — the four preallocated ids 0-3 and every id
`newPath` has issued — is below the counter). -/
inductive ReachIssued : AllocState → Finset ℕ → Prop where
  | init : ReachIssued initAlloc ∅
  | newOk {s : AllocState} {live : Finset ℕ} {x : ℕ} {s' : AllocState} :
      ReachIssued s live → newPathStep s (.ok x) s' → ReachIssued s' (insert x live)
  | newErr {s : AllocState} {live : Finset ℕ} {s' : AllocState} :
      ReachIssued s live → newPathStep s .outOfPaths s' → ReachIssued s' live
  | del {s : AllocState} {live : Finset ℕ} (x : ℕ) (hx : x < s.path) :
      ReachIssued s live → ReachIssued (delPath s x) (live.erase x)

/-! Path-string helpers.

`fs.go` relies on Go's standard `path.Clean`, `path.Dir` and `path.Base`
and on `strings.Split(path, "/")`; these pure stdlib functions are
embedded here over `List Char`. -/

/-- Go's `strings.Split(s, "/")`: the segments of `s` between `/` separators,
empty segments included. -/
def splitOnSlash : List Char → List (List Char)
  | [] => [[]]
  | c :: rest =>
    if c = '/' then [] :: splitOnSlash rest
    else
      match splitOnSlash rest with
      | s :: ss => (c :: s) :: ss
      | [] => [[c]]

/-- The element-processing loop of Go's `path.Clean`: `acc` is the output
stack (reversed); empty and `"."` segments have already been dropped;
`".."` pops a non-`".."` entry, is discarded at the root, and is kept when
the path is relative. -/
def cleanElems (rooted : Bool) : List (List Char) → List (List Char) → List (List Char)
  | acc, [] => acc.reverse
  | acc, seg :: rest =>
    if seg = ['.', '.'] then
      match acc with
      | [] =>
        if rooted then cleanElems rooted [] rest
        else cleanElems rooted [['.', '.']] rest
      | top :: acc' =>
        if top = ['.', '.'] then cleanElems rooted (seg :: acc) rest
        else cleanElems rooted acc' rest
    else cleanElems rooted (seg :: acc) rest

/-- Join segments with `/`. -/
def joinSlash : List (List Char) → List Char
  | [] => []
  | [s] => s
  | s :: rest => s ++ '/' :: joinSlash rest

/-- Go's `path.Clean`: shortest equivalent path — collapse multiple
slashes, drop `.` elements, resolve `..`, return `"."` for the empty
result of a relative path. -/
def clean (p : String) : String :=
  if p = "" then "."
  else
    let rooted := match p.data with | '/' :: _ => true | _ => false
    let elems := (splitOnSlash p.data).filter (fun s => !s.isEmpty && s != ['.'])
    let out := cleanElems rooted [] elems
    if rooted then ⟨'/' :: joinSlash out⟩
    else if out.isEmpty then "." else ⟨joinSlash out⟩

/-- Go's `path.Base`: last element after stripping trailing slashes;
`"."` for the empty path, `"/"` for an all-slash path. -/
def pathBase (p : String) : String :=
  if p = "" then "."
  else
    let cs := (p.data.reverse.dropWhile (fun c => c == '/')).reverse
    let base := (cs.reverse.takeWhile (fun c => c != '/')).reverse
    if base.isEmpty then "/" else ⟨base⟩

/-- Go's `path.Dir`: everything up to and including the final slash, then
cleaned; `"."` when there is no slash. -/
def pathDir (p : String) : String :=
  clean ⟨(p.data.reverse.dropWhile (fun c => c != '/')).reverse⟩

/-- The helper `split` from fs.go lines 298-307: empty list for `""`, `"/"` and
`"."`; otherwise strip one leading slash and split on `/`. -/
def split (p : String) : List String :=
  if p = "" ∨ p = "/" ∨ p = "." then []
  else
    let cs := match p.data with
      | '/' :: rest => rest
      | cs => cs
    (splitOnSlash cs).map (fun l => ⟨l⟩)

/-! The node tree, identity store, fid and filesystem. -/

/-- The constant `plan9.DMDIR`, the mode bit for directories (`1 << 31`). -/
def DMDIR : ℕ := 2 ^ 31

/-- The two synthetic-file content providers wired up by `New`: the
identity table (`fs.group`) behind `/adm/group` and the control handler
(`newCtl(fs)`) behind `/adm/ctl`. -/
inductive Provider where
  | groupTable
  | ctl
  deriving DecidableEq

/-- A tree node, from the spec's data model (`node` itself is outside
`src/`): name, owner uid, group gid, type+mode bits, unique path id,
version counter, parent back-reference (modelled by the parent's path id —
path ids uniquely name live nodes), optional synthetic provider, byte
content and named children.  A node is a directory iff `DMDIR` is set in
`mode`. -/
inductive Node where
  | mk (name uid gid : String) (mode pathId vers parent : ℕ)
      (provider : Option Provider) (content : List ℕ)
      (children : List (String × Node))

def Node.name : Node → String
  | .mk n _ _ _ _ _ _ _ _ _ => n

def Node.uid : Node → String
  | .mk _ u _ _ _ _ _ _ _ _ => u

def Node.gid : Node → String
  | .mk _ _ g _ _ _ _ _ _ _ => g

def Node.mode : Node → ℕ
  | .mk _ _ _ m _ _ _ _ _ _ => m

def Node.pathId : Node → ℕ
  | .mk _ _ _ _ p _ _ _ _ _ => p

def Node.vers : Node → ℕ
  | .mk _ _ _ _ _ v _ _ _ _ => v

def Node.parent : Node → ℕ
  | .mk _ _ _ _ _ _ q _ _ _ => q

def Node.provider : Node → Option Provider
  | .mk _ _ _ _ _ _ _ pr _ _ => pr

def Node.content : Node → List ℕ
  | .mk _ _ _ _ _ _ _ _ c _ => c

def Node.children : Node → List (String × Node)
  | .mk _ _ _ _ _ _ _ _ _ ch => ch

def Node.isDir (n : Node) : Bool := n.mode &&& DMDIR != 0

/-- The error taxonomy (spec section 7).  `anonymousMissing` and
`hostOwnerMissing` model the two crash paths of the Go code: dereferencing
a nil identity when `"none"` is absent, and the `panic(err) // can't
happen` branches of the facade. -/
inductive Err where
  | notFound
  | notADirectory
  | alreadyExists
  | permissionDenied
  | dirNotEmpty
  | badOffset
  | ioError
  | outOfPaths
  | anonymousMissing
  | hostOwnerMissing
  deriving DecidableEq

/-- Modelled from the spec: the identity store (`group` lives outside
`src/`).  Lookup maps a supplied username to its canonical identity name;
spec section 3: "canonical name plus group membership; lookup by supplied
username falls back to a well-known anonymous identity". -/
structure Group where
  table : List (String × String)
  deriving DecidableEq

/-- Modelled from the spec: `Group.Get` — `none` when the username is not
in the store (the Go method returns an error then). -/
def Group.get (g : Group) (uname : String) : Option String :=
  g.table.lookup uname

/-- Modelled from the spec: `newGroup(owner)` — the store starts with the
host owner (whose absence would be a process-fatal startup violation, spec
section 7) and the well-known anonymous identity `"none"`. -/
def newGroup (owner : String) : Group :=
  ⟨[(owner, owner), ("none", "none")]⟩

/-- A fid: client-chosen number, resolved owner identity, bound node, open
mode (`none` = not opened, the Go zero value) and directory-read cursor
(spec section 3; the `Fid` struct lives outside `src/`). -/
structure Fid where
  num : ℕ
  uid : String
  node : Node
  omode : Option ℕ
  cursor : ℕ

/-- The `FS` state from fs.go: bump counter and reclaim set of the path
allocator (the deterministic list-backed view used by the executable
facade), the root node, the identity store and the host owner.  The
mutex, the fid-minting channel and the logger are connection plumbing
with no effect on the values computed here. -/
structure FS where
  path : ℕ
  pathmap : List ℕ
  root : Node
  group : Group
  hostowner : String

/-- The constructor `New(hostowner)` from fs.go lines 90-119: default the owner to
`"adm"`, preallocate path ids 0-3 for `/`, `/adm`, `/adm/group` and
`/adm/ctl`, wire the two synthetic files, link parents (root to itself)
and start the counter at 4. -/
def New (hostowner : String) : FS :=
  let owner := if hostowner = "" then "adm" else hostowner
  let groupNode : Node := .mk "group" "adm" "adm" 0o660 2 0 1 (some .groupTable) [] []
  let ctlNode : Node := .mk "ctl" "adm" "adm" 0o220 3 0 1 (some .ctl) [] []
  let admNode : Node :=
    .mk "adm" "adm" "adm" (0o770 ||| DMDIR) 1 0 0 none []
      [("group", groupNode), ("ctl", ctlNode)]
  let rootNode : Node :=
    .mk "/" owner "adm" (0o755 ||| DMDIR) 0 0 0 none [] [("adm", admNode)]
  { path := 4, pathmap := [], root := rootNode, group := newGroup owner,
    hostowner := owner }

/-- Modelled from the spec: the node-level `walk` helper used by `FS.walk`
(it lives outside `src/`); spec sections 4.2/4.3: walking resolves a
sequence of child names, failing NotFound on a missing name and
NotADirectory when asked to descend through a non-directory. -/
def Node.walkTo : Node → List String → Except Err Node
  | n, [] => .ok n
  | n, name :: rest =>
    if n.isDir then
      match n.children.lookup name with
      | some c => c.walkTo rest
      | none => .error .notFound
    else .error .notADirectory

/-- The method `FS.walk` from fs.go lines 157-175: split the name and resolve it from
the root; the empty split returns the root itself. -/
def FS.walk (fs : FS) (name : String) : Except Err Node :=
  fs.root.walkTo (split name)

/-- The identity-resolution prefix of `FS.Attach` (fs.go lines 179-183):
look up the supplied username, fall back to `"none"` when absent. -/
def attachUid (g : Group) (uname : String) : Except Err String :=
  match g.get uname with
  | some u => .ok u
  | none =>
    match g.get "none" with
    | some u => .ok u
    | none => .error .anonymousMissing

/-- The unopened fid value the facade constructs: `&Fid{uid: uid, node:
node}` with the remaining fields at their Go zero values. -/
def freshFid (uid : String) (n : Node) : Fid :=
  { num := 0, uid := uid, node := n, omode := none, cursor := 0 }

/-- The facade operation `FS.Attach` from fs.go lines 178-191: resolve the identity with
anonymous fallback, clean `aname`, walk it from the root and return a
fresh unopened fid bound to the resolved node. -/
def FS.Attach (fs : FS) (uname aname : String) : Except Err Fid := do
  let uid ← attachUid fs.group uname
  let node ← fs.walk (clean aname)
  return freshFid uid node

/-! The mutating facade operations.

`FS.Create`, `FS.Open` and `FS.Remove` (fs.go lines 194-253) resolve the
host identity, walk, and then call into the node layer (`node.Create`,
`Fid.Open`, `Fid.Remove`), which lives outside `src/` and is modelled
from the spec below.  Go mutates the shared tree through pointers; here
each operation returns the updated `FS`. -/

/-- Plan 9 open modes used by the facade (`plan9` package constants). -/
def OREAD : ℕ := 0
def OWRITE : ℕ := 1
def ORDWR : ℕ := 2
def OEXEC : ℕ := 3
def OTRUNC : ℕ := 16

/-- The deterministic, executable view of `newPath` used by the facade:
the reclaim list is drained from the front — one of the behaviours the
unspecified Go map iteration order permits; otherwise bump the counter,
failing at the 64-bit ceiling. -/
def FS.newPathD (fs : FS) : Except Err (ℕ × FS) :=
  match fs.pathmap with
  | x :: rest => .ok (x, { fs with pathmap := rest })
  | [] =>
    if fs.path = maxPath then .error .outOfPaths
    else .ok (fs.path, { fs with path := fs.path + 1 })

/-- The function `delPath` on the list-backed reclaim set (set semantics: inserting a
present element is a no-op, as for the Go map). -/
def FS.delPathD (fs : FS) (x : ℕ) : FS :=
  if fs.pathmap.contains x then fs else { fs with pathmap := x :: fs.pathmap }

/-- Modelled from the spec (section 4.2): select the owner, group or other
permission triad by comparing the requester to the node's uid/gid (group
membership is approximated by the gid name — the group-table format lives
outside `src/`). -/
def Node.triadFor (n : Node) (uid : String) : ℕ :=
  if uid = n.uid then n.mode / 0o100 % 8
  else if uid = n.gid then n.mode / 0o10 % 8
  else n.mode % 8

def openNeedsRead (mode : ℕ) : Bool :=
  mode % 4 == OREAD || mode % 4 == ORDWR

def openNeedsWrite (mode : ℕ) : Bool :=
  mode % 4 == OWRITE || mode % 4 == ORDWR || mode &&& OTRUNC != 0

def openNeedsExec (mode : ℕ) : Bool :=
  mode % 4 == OEXEC

/-- Modelled from the spec (section 4.2): the permission algorithm run
before an open — read bit for read-mode opens, write bit for
write/truncate, execute bit for exec opens. -/
def openAllowed (n : Node) (uid : String) (mode : ℕ) : Bool :=
  let t := n.triadFor uid
  (!openNeedsRead mode || t &&& 4 != 0) &&
    (!openNeedsWrite mode || t &&& 2 != 0) &&
    (!openNeedsExec mode || t &&& 1 != 0)

/-- Reset a node's content to length zero (truncate), bumping the version
counter as for any content mutation. -/
def Node.truncate : Node → Node
  | .mk nm u g m p v q pr _ ch => .mk nm u g m p (v + 1) q pr [] ch

/-- Apply `f` to the node reached by the path `parts` below `n`, leaving
the rest of the tree unchanged (the functional image of a mutation Go
performs through a pointer). -/
def Node.updateAt (f : Node → Node) : Node → List String → Node
  | n, [] => f n
  | n, name :: rest =>
    match n with
    | .mk nm u g m p v q pr c ch =>
      .mk nm u g m p v q pr c
        (ch.map fun kv =>
          if kv.1 = name then (kv.1, Node.updateAt f kv.2 rest) else kv)

/-- Append a child to a directory's ordered children. -/
def Node.addChild (n : Node) (cname : String) (child : Node) : Node :=
  match n with
  | .mk nm u g m p v q pr c ch => .mk nm u g m p v q pr c (ch ++ [(cname, child)])

/-- Unlink a child from a directory. -/
def Node.removeChild (n : Node) (cname : String) : Node :=
  match n with
  | .mk nm u g m p v q pr c ch =>
    .mk nm u g m p v q pr c (ch.filter fun kv => kv.1 != cname)

/-- The host-identity resolution shared by `Create`/`Open`/`Remove`
(fs.go: `fs.group.Get(fs.hostowner)`; the error branch models the
`panic(err) // can't happen` there). -/
def hostUid (fs : FS) : Except Err String :=
  match fs.group.get fs.hostowner with
  | some u => .ok u
  | none => .error .hostOwnerMissing

set_option linter.unusedVariables false in
/-- Modelled from the spec (section 4.3 Create): under the walked
directory, require the directory bit and the requester's write permission,
refuse an existing name, allocate a fresh path id, and create the child
with owner = requester and group inherited from the directory.  The open
mode is consumed by the protocol-level create; the facade's returned fid
is unopened (fs.go line 213 sets only uid and node); `mode` is therefore
passed through unused, as the facade's result is concerned. -/
def FS.createWithUid (fs : FS) (uid name : String) (mode perm : ℕ) :
    Except Err (FS × Fid) :=
  let cname := clean name
  let dirParts := split (pathDir cname)
  let bname := pathBase cname
  (fs.root.walkTo dirParts).bind fun dir =>
    if !dir.isDir then .error .notADirectory
    else if dir.triadFor uid &&& 2 == 0 then .error .permissionDenied
    else if (dir.children.lookup bname).isSome then .error .alreadyExists
    else
      fs.newPathD.bind fun pf =>
        let child : Node := .mk bname uid dir.gid perm pf.1 0 dir.pathId none [] []
        .ok ({ pf.2 with
                root := pf.2.root.updateAt (fun d => d.addChild bname child) dirParts },
          freshFid uid child)

/-- The facade operation `FS.Create` from fs.go lines 194-214: resolve the host identity (the
facade always acts as the host owner), then create under the cleaned
name's directory. -/
def FS.Create (fs : FS) (name : String) (mode perm : ℕ) : Except Err (FS × Fid) := do
  let uid ← hostUid fs
  fs.createWithUid uid name mode perm

/-- Modelled from the spec (sections 4.2/4.3 Open): after the permission
check, bind the open mode to the fid; truncate-mode resets the content
length to zero.  Exclusive-use admission control is per-connection open
state, outside this model. -/
def FS.openWithUid (fs : FS) (uid name : String) (mode : ℕ) :
    Except Err (FS × Fid) :=
  let parts := split (clean name)
  (fs.root.walkTo parts).bind fun node =>
    if openAllowed node uid mode then
      let node' := if mode &&& OTRUNC != 0 then node.truncate else node
      let fs' :=
        if mode &&& OTRUNC != 0 then
          { fs with root := fs.root.updateAt Node.truncate parts }
        else fs
      .ok (fs', { freshFid uid node' with omode := some mode })
    else .error .permissionDenied

/-- The facade operation `FS.Open` from fs.go lines 217-235: resolve the host identity, walk
the cleaned name, and open. -/
def FS.Open (fs : FS) (name : String) (mode : ℕ) : Except Err (FS × Fid) := do
  let uid ← hostUid fs
  fs.openWithUid uid name mode

/-- The fid `FS.Remove` constructs before calling `Fid.Remove` (fs.go
lines 238-252): host identity plus the walked node. -/
def FS.removeFid (fs : FS) (name : String) : Except Err Fid := do
  let uid ← hostUid fs
  let node ← fs.root.walkTo (split (clean name))
  return freshFid uid node

/-- Modelled from the spec (section 4.3 Remove): write permission on the
parent directory is required, a non-empty directory cannot be removed;
the node is unlinked and its path id freed.  `Fid.Remove` reaches the
parent through the node's parent pointer; here the parent is the walked
prefix of the same path.  Removing the root (empty path) is refused. -/
def FS.removeWithUid (fs : FS) (uid name : String) : Except Err FS :=
  let parts := split (clean name)
  match parts.getLast? with
  | none => .error .permissionDenied
  | some bname =>
    let dirParts := parts.dropLast
    (fs.root.walkTo dirParts).bind fun dir =>
      if dir.triadFor uid &&& 2 == 0 then .error .permissionDenied
      else
        match dir.children.lookup bname with
        | none => .error .notFound
        | some child =>
          if child.isDir && !child.children.isEmpty then .error .dirNotEmpty
          else
            .ok (({ fs with
              root := fs.root.updateAt (fun d => d.removeChild bname) dirParts
              }).delPathD child.pathId)

/-- The facade operation `FS.Remove` from fs.go lines 238-253. -/
def FS.Remove (fs : FS) (name : String) : Except Err FS := do
  let fid ← fs.removeFid name
  fs.removeWithUid fid.uid name

/-- The minting task's fixed fid template (fs.go lines 148-152):
`Fid{num: uint32(0), uid: "none", node: fs.root}` with the remaining
fields at their zero values. -/
def newFidTemplate (fs : FS) : Fid :=
  { num := 0, uid := "none", node := fs.root, omode := none, cursor := 0 }

/-- What one iteration of the `FS.newFid` loop does to one request
channel: the fids sent on it and whether it was closed afterwards. -/
structure MintReply where
  sent : List Fid
  closed : Bool

/-- One iteration of the `FS.newFid` loop (fs.go lines 146-155): send the
fixed template, then close the reply channel. -/
def FS.newFid (fs : FS) : MintReply :=
  { sent := [newFidTemplate fs], closed := true }

/-- Claim C1: `newPath` first drains the reclaim set, returning some element and
removing it; otherwise, with the counter strictly below the 64-bit ceiling,
it returns the counter and increments it; with the reclaim set empty and
the counter at the ceiling it fails with the ResourceExhausted error.  The
final conjunct records that a call from any state produces some outcome. -/
theorem newPath_drains_then_bumps_then_exhausts
    (s : AllocState) (r : NewPathResult) (s' : AllocState)
    (h : newPathStep s r s') :
    (s.pathmap ≠ ∅ → ∃ x ∈ s.pathmap, r = .ok x ∧ s' = ⟨s.path, s.pathmap.erase x⟩)
    ∧ (s.pathmap = ∅ → s.path < maxPath →
        r = .ok s.path ∧ s' = ⟨s.path + 1, s.pathmap⟩)
    ∧ (s.pathmap = ∅ → s.path = maxPath → r = .outOfPaths ∧ s' = s)
    ∧ (∃ r' s'', newPathStep s r' s'') := by
  refine ⟨?_, ?_, ?_, ?_⟩
  · intro hne
    cases h with
    | reclaim x hx => exact ⟨x, hx, rfl, rfl⟩
    | bump hempty hne' => exact absurd hempty hne
    | exhausted hempty heq => exact absurd hempty hne
  · intro hempty hlt
    cases h with
    | reclaim x hx => exact absurd (hempty ▸ hx) (Finset.not_mem_empty x)
    | bump hempty' hne' => exact ⟨rfl, rfl⟩
    | exhausted hempty' heq => exact absurd heq (Nat.ne_of_lt hlt)
  · intro hempty hmax
    cases h with
    | reclaim x hx => exact absurd (hempty ▸ hx) (Finset.not_mem_empty x)
    | bump hempty' hne' => exact absurd hmax hne'
    | exhausted hempty' heq => exact ⟨rfl, rfl⟩
  · rcases Finset.eq_empty_or_nonempty s.pathmap with hempty | ⟨x, hx⟩
    · by_cases hmax : s.path = maxPath
      · exact ⟨.outOfPaths, s, .exhausted s hempty hmax⟩
      · exact ⟨.ok s.path, ⟨s.path + 1, s.pathmap⟩, .bump s hempty hmax⟩
    · exact ⟨.ok x, ⟨s.path, s.pathmap.erase x⟩, .reclaim s x hx⟩

/-- Witness for `newPath_drains_then_bumps_then_exhausts` at the concrete
state `⟨4, {7}⟩` and the reclaim step returning 7. -/
theorem newPath_drains_then_bumps_then_exhausts_witness :
    ∃ x ∈ ({7} : Finset ℕ), NewPathResult.ok 7 = NewPathResult.ok x ∧
      (⟨4, ({7} : Finset ℕ).erase 7⟩ : AllocState) =
        ⟨(⟨4, {7}⟩ : AllocState).path, (⟨4, {7}⟩ : AllocState).pathmap.erase x⟩ :=
  (newPath_drains_then_bumps_then_exhausts ⟨4, {7}⟩ (.ok 7) ⟨4, ({7} : Finset ℕ).erase 7⟩
    (.reclaim ⟨4, {7}⟩ 7 (by decide))).1 (by decide)

/-- Claim C2 counterexample: with `delPath` allowed an arbitrary argument (as the
Go signature permits), an id not yet issued can be planted in the reclaim
set; `newPath` hands it out, and when the bump counter later reaches the
same value `newPath` hands it out a second time while it is still live.
Concrete trace from the initial state: `delPath 5; newPath = 5 (reclaim);
newPath = 4 (bump); newPath = 5 (bump)` — the last call returns the live
id 5. -/
theorem newPath_can_reissue_live_id :
    ∃ (s : AllocState) (live : Finset ℕ) (x : ℕ) (s' : AllocState),
      ReachAny s live ∧ newPathStep s (.ok x) s' ∧ x ∈ live := by
  have h0 : ReachAny initAlloc ∅ := .init
  have h1 : ReachAny (delPath initAlloc 5) ((∅ : Finset ℕ).erase 5) := .del 5 h0
  have e1 : delPath initAlloc 5 = ⟨4, {5}⟩ := by
    simp [delPath, initAlloc]
  have e1' : ((∅ : Finset ℕ).erase 5) = ∅ := by decide
  rw [e1, e1'] at h1
  have step2 : newPathStep ⟨4, {5}⟩ (.ok 5) ⟨4, ({5} : Finset ℕ).erase 5⟩ :=
    .reclaim ⟨4, {5}⟩ 5 (by decide)
  have e2 : (⟨4, ({5} : Finset ℕ).erase 5⟩ : AllocState) = ⟨4, ∅⟩ := by decide
  rw [e2] at step2
  have h2 : ReachAny ⟨4, ∅⟩ (insert 5 ∅) := .newOk h1 step2
  have step3 : newPathStep ⟨4, ∅⟩ (.ok 4) ⟨5, ∅⟩ :=
    .bump ⟨4, (∅ : Finset ℕ)⟩ rfl (by decide)
  have h3 : ReachAny ⟨5, ∅⟩ (insert 4 (insert 5 ∅)) := .newOk h2 step3
  have step4 : newPathStep ⟨5, ∅⟩ (.ok 5) ⟨6, ∅⟩ :=
    .bump ⟨5, (∅ : Finset ℕ)⟩ rfl (by decide)
  exact ⟨⟨5, ∅⟩, insert 4 (insert 5 ∅), 5, ⟨6, ∅⟩, h3, step4, by decide⟩

/-- Strengthened invariant carried through `ReachIssued` induction: every
live id and every reclaimed id is below the counter, and the two sets are
disjoint. -/
theorem reachIssued_invariant {s : AllocState} {live : Finset ℕ}
    (h : ReachIssued s live) :
    (∀ y ∈ live, y < s.path) ∧ (∀ y ∈ s.pathmap, y < s.path) ∧
      Disjoint live s.pathmap := by
  induction h with
  | init => simp [initAlloc]
  | newOk hr hstep ih =>
    obtain ⟨hlive, hmap, hdisj⟩ := ih
    cases hstep with
    | reclaim x hx =>
      refine ⟨?_, ?_, ?_⟩
      · intro y hy
        rcases Finset.mem_insert.mp hy with rfl | hy
        · exact hmap y hx
        · exact hlive y hy
      · intro y hy
        exact hmap y (Finset.mem_of_mem_erase hy)
      · rw [Finset.disjoint_left]
        intro y hy hy'
        rcases Finset.mem_insert.mp hy with rfl | hy
        · exact Finset.not_mem_erase y _ hy'
        · exact Finset.disjoint_left.mp hdisj hy (Finset.mem_of_mem_erase hy')
    | bump hempty hne =>
      refine ⟨?_, ?_, ?_⟩
      · intro y hy
        rcases Finset.mem_insert.mp hy with rfl | hy
        · exact Nat.lt_succ_self _
        · exact Nat.lt_succ_of_lt (hlive y hy)
      · intro y hy
        exact Nat.lt_succ_of_lt (hmap y hy)
      · rw [hempty]
        exact Finset.disjoint_empty_right _
  | newErr hr hstep ih =>
    cases hstep with
    | exhausted hempty heq => exact ih
  | del x hx hr ih =>
    obtain ⟨hlive, hmap, hdisj⟩ := ih
    refine ⟨?_, ?_, ?_⟩
    · intro y hy
      exact hlive y (Finset.mem_of_mem_erase hy)
    · intro y hy
      rcases Finset.mem_insert.mp hy with rfl | hy
      · exact hx
      · exact hmap y hy
    · rw [Finset.disjoint_left]
      intro y hy hy'
      rcases Finset.mem_insert.mp hy' with rfl | hy'
      · exact Finset.not_mem_erase y _ hy
      · exact Finset.disjoint_left.mp hdisj (Finset.mem_of_mem_erase hy) hy'

/-- Claim C2 amended: along every `newPath`/`delPath` sequence from the initial
state in which `delPath` is only passed ids below the current counter
(i.e. ids that were actually issued or preallocated, which is every call
the filesystem makes), the live set and the reclaim set stay disjoint, and
`newPath` never returns a currently live id. -/
theorem live_and_reclaim_disjoint {s : AllocState} {live : Finset ℕ}
    (h : ReachIssued s live) :
    Disjoint live s.pathmap ∧
      ∀ x s', newPathStep s (.ok x) s' → x ∉ live := by
  obtain ⟨hlive, hmap, hdisj⟩ := reachIssued_invariant h
  refine ⟨hdisj, ?_⟩
  intro x s' hstep hm
  cases hstep with
  | reclaim x hx => exact Finset.disjoint_left.mp hdisj hm hx
  | bump hempty hne => exact Nat.lt_irrefl _ (hlive _ hm)

/-- Witness for `live_and_reclaim_disjoint`: the trace `newPath = 4;
delPath 4` from the initial state reaches `⟨5, {4}⟩` with no live id. -/
theorem live_and_reclaim_disjoint_witness :
    Disjoint (({4} : Finset ℕ).erase 4) (insert 4 (∅ : Finset ℕ)) ∧
      ∀ x s', newPathStep (delPath ⟨5, ∅⟩ 4) (.ok x) s' →
        x ∉ (({4} : Finset ℕ).erase 4) := by
  have h0 : ReachIssued initAlloc ∅ := .init
  have step1 : newPathStep initAlloc (.ok 4) ⟨5, ∅⟩ :=
    .bump initAlloc rfl (by decide)
  have h1 : ReachIssued ⟨5, ∅⟩ (insert 4 ∅) := .newOk h0 step1
  have e1 : (insert 4 (∅ : Finset ℕ)) = {4} := by decide
  rw [e1] at h1
  have h2 : ReachIssued (delPath ⟨5, ∅⟩ 4) (({4} : Finset ℕ).erase 4) :=
    .del 4 (by decide) h1
  exact live_and_reclaim_disjoint h2

/-- Claim C10: when `newPath` fails with the path-exhaustion error the state is
unchanged (the counter is not incremented, the reclaim set untouched), so
`delPath x` followed by `newPath` can still succeed and return `x`. -/
theorem newPath_exhaustion_preserves_state
    (s s' : AllocState) (x : ℕ) (h : newPathStep s .outOfPaths s') :
    s' = s ∧ s.pathmap = ∅ ∧ s.path = maxPath ∧
      newPathStep (delPath s x) (.ok x)
        ⟨s.path, (insert x s.pathmap).erase x⟩ := by
  cases h with
  | exhausted hempty heq =>
    exact ⟨rfl, hempty, heq, .reclaim ⟨s.path, insert x s.pathmap⟩ x
      (Finset.mem_insert_self x s.pathmap)⟩

/-- Witness for `newPath_exhaustion_preserves_state` at the exhausted state
`⟨maxPath, ∅⟩` with `x = 9`. -/
theorem newPath_exhaustion_preserves_state_witness :
    (⟨maxPath, ∅⟩ : AllocState) = ⟨maxPath, ∅⟩ ∧
      (⟨maxPath, (∅ : Finset ℕ)⟩ : AllocState).pathmap = ∅ ∧
      (⟨maxPath, (∅ : Finset ℕ)⟩ : AllocState).path = maxPath ∧
      newPathStep (delPath ⟨maxPath, ∅⟩ 9) (.ok 9)
        ⟨(⟨maxPath, (∅ : Finset ℕ)⟩ : AllocState).path,
          (insert 9 (⟨maxPath, (∅ : Finset ℕ)⟩ : AllocState).pathmap).erase 9⟩ :=
  newPath_exhaustion_preserves_state ⟨maxPath, ∅⟩ ⟨maxPath, ∅⟩ 9
    (.exhausted ⟨maxPath, ∅⟩ rfl rfl)

/-- The anonymous identity is always resolvable in the store `newGroup`
builds. -/
theorem newGroup_get_none (owner : String) :
    (newGroup owner).get "none" = some "none" := by
  by_cases h : owner = "none"
  · subst h
    simp [newGroup, Group.get, List.lookup]
  · have hb : ("none" == owner) = false :=
      beq_eq_false_iff_ne.mpr fun hh => h hh.symm
    simp [newGroup, Group.get, List.lookup, hb]

/-- Identity resolution in `Attach` never fails on a store built by
`newGroup`. -/
theorem attachUid_newGroup_ok (owner uname : String) :
    ∃ u, attachUid (newGroup owner) uname = .ok u := by
  unfold attachUid
  cases hu : (newGroup owner).get uname with
  | some u => exact ⟨u, rfl⟩
  | none => exact ⟨"none", by rw [newGroup_get_none]⟩

/-- A failed walk reports NotFound (missing child) or NotADirectory
(descending through a non-directory), never any other error. -/
theorem walkTo_error (parts : List String) (n : Node) (e : Err)
    (h : n.walkTo parts = .error e) : e = .notFound ∨ e = .notADirectory := by
  induction parts generalizing n with
  | nil => simp [Node.walkTo] at h
  | cons name rest ih =>
    unfold Node.walkTo at h
    by_cases hd : n.isDir = true
    · rw [if_pos hd] at h
      cases hl : n.children.lookup name with
      | some c => rw [hl] at h; exact ih c h
      | none => rw [hl] at h; cases h; exact Or.inl rfl
    · rw [if_neg hd] at h
      cases h
      exact Or.inr rfl

/-- Claim C9: every fid template minted by the fid-minting task is the same
fully initialized value — number 0, uid `"none"`, bound to the
filesystem root, unopened — and the reply channel is closed after exactly
one fid is sent. -/
theorem newFid_mints_fixed_template (fs : FS) :
    fs.newFid.sent =
        [{ num := 0, uid := "none", node := fs.root, omode := none, cursor := 0 }] ∧
      fs.newFid.sent.length = 1 ∧ fs.newFid.closed = true :=
  ⟨rfl, rfl, rfl⟩

/-- Claim C8: in the tree built by `New` the root's parent reference is the root
itself (parent references are path ids; the root's parent id equals the
root's own id). -/
theorem root_is_own_parent (h : String) :
    (New h).root.parent = (New h).root.pathId := rfl

/-- Claim C5 counterexample: `New ""` defaults the owner to `"adm"`, so the
root's owner uid is not the (empty) host identity that was passed in. -/
theorem root_owner_not_passed_identity :
    (New "").root.uid = "adm" ∧ ("adm" : String) ≠ "" :=
  ⟨rfl, by decide⟩

/-- Claim C5 amended: the root created by `New` has mode `0755` plus the
directory bit, and its owner uid is the host identity passed to `New`
except that the empty string defaults to `"adm"`; in both cases it equals
the stored host owner. -/
theorem root_mode_and_owner (h : String) :
    (New h).root.mode = 0o755 ||| DMDIR ∧
      (New h).root.uid = (if h = "" then "adm" else h) ∧
      (New h).root.uid = (New h).hostowner :=
  ⟨rfl, rfl, rfl⟩

/-- Claim C6 counterexample: the administrative directory `/adm` is created with
mode `0770`, whose group triad also contains the write bit — its mode does
not grant write permission only to the owner. -/
theorem adm_dir_group_writable :
    ∃ adm, (New "glenda").root.children.lookup "adm" = some adm ∧
      adm.mode = 0o770 ||| DMDIR ∧ adm.mode &&& 0o020 ≠ 0 :=
  ⟨_, rfl, rfl, by decide⟩

/-- Claim C6 amended: under root sits the administrative directory `/adm` with
mode `0770` plus the directory bit (read/write/execute for owner and
group, nothing for others); inside it the identity-table file `group`
is backed by the identity-store provider, and the control file `ctl` has
mode `0220` — no read bit anywhere, write-only. -/
theorem adm_namespace_layout (h : String) :
    ∃ adm g c,
      (New h).root.children.lookup "adm" = some adm ∧
      adm.mode = 0o770 ||| DMDIR ∧ adm.mode &&& 0o007 = 0 ∧
      adm.children.lookup "group" = some g ∧ g.provider = some .groupTable ∧
      adm.children.lookup "ctl" = some c ∧ c.provider = some .ctl ∧
      c.mode = 0o220 ∧ c.mode &&& 0o444 = 0 :=
  ⟨_, _, _, rfl, rfl, by decide, rfl, rfl, rfl, rfl, rfl, by decide⟩

/-- Unfolding lemma for `Attach`: resolve, walk, construct. -/
theorem Attach_eq (fs : FS) (uname aname : String) :
    fs.Attach uname aname =
      (attachUid fs.group uname).bind
        (fun uid => (fs.walk (clean aname)).bind
          (fun node => .ok (freshFid uid node))) := rfl

/-- The host owner is always resolvable in the store `newGroup` builds. -/
theorem newGroup_get_self (owner : String) :
    (newGroup owner).get owner = some owner := by
  simp [newGroup, Group.get, List.lookup]

/-- On a filesystem built by `New`, the host identity resolves to the
stored host owner. -/
theorem hostUid_New (h : String) :
    hostUid (New h) = .ok (New h).hostowner := by
  unfold hostUid
  have hgr : (New h).group = newGroup (if h = "" then "adm" else h) := rfl
  have how : (New h).hostowner = (if h = "" then "adm" else h) := rfl
  rw [hgr, how, newGroup_get_self]

/-- Whatever `createWithUid` returns carries the requester identity it was
given. -/
theorem createWithUid_uid (fs : FS) (uid name : String) (mode perm : ℕ)
    (r : FS × Fid) (h : fs.createWithUid uid name mode perm = .ok r) :
    r.2.uid = uid := by
  simp only [FS.createWithUid] at h
  cases hw : fs.root.walkTo (split (pathDir (clean name))) with
  | error e => rw [hw] at h; cases h
  | ok dir =>
    rw [hw] at h
    simp only [Except.bind] at h
    split at h
    · cases h
    · split at h
      · cases h
      · split at h
        · cases h
        · cases hp : fs.newPathD with
          | error e => rw [hp] at h; cases h
          | ok pf =>
            rw [hp] at h
            simp only [Except.bind] at h
            cases h
            rfl

/-- Whatever `openWithUid` returns carries the requester identity it was
given. -/
theorem openWithUid_uid (fs : FS) (uid name : String) (mode : ℕ)
    (r : FS × Fid) (h : fs.openWithUid uid name mode = .ok r) :
    r.2.uid = uid := by
  simp only [FS.openWithUid] at h
  cases hw : fs.root.walkTo (split (clean name)) with
  | error e => rw [hw] at h; cases h
  | ok node =>
    rw [hw] at h
    simp only [Except.bind] at h
    split at h
    · cases h
      rfl
    · cases h

/-- Whatever fid `removeFid` constructs carries the identity `hostUid`
resolved. -/
theorem removeFid_uid (fs : FS) (name u : String) (fid : Fid)
    (hu : hostUid fs = .ok u) (h : fs.removeFid name = .ok fid) :
    fid.uid = u := by
  unfold FS.removeFid at h
  rw [show (do
      let uid ← hostUid fs
      let node ← fs.root.walkTo (split (clean name))
      pure (freshFid uid node) : Except Err Fid)
    = (hostUid fs).bind (fun uid => (fs.root.walkTo (split (clean name))).bind
        (fun node => .ok (freshFid uid node))) from rfl, hu] at h
  simp only [Except.bind] at h
  cases hw : fs.root.walkTo (split (clean name)) with
  | error e => rw [hw] at h; cases h
  | ok node => rw [hw] at h; cases h; rfl

/-- Claim C3 amended: `FS.Create`, `FS.Open` and `FS.Remove` resolve the
identity used for permission checks to the fixed configured host identity
for every input path; `FS.Attach` instead resolves the supplied username
(with anonymous fallback). -/
theorem facade_ops_use_host_identity (h name : String) (mode perm : ℕ) :
    hostUid (New h) = .ok (New h).hostowner
    ∧ (∀ r, (New h).Create name mode perm = .ok r → r.2.uid = (New h).hostowner)
    ∧ (∀ r, (New h).Open name mode = .ok r → r.2.uid = (New h).hostowner)
    ∧ (∀ fid, (New h).removeFid name = .ok fid → fid.uid = (New h).hostowner) := by
  refine ⟨hostUid_New h, ?_, ?_, ?_⟩
  · intro r hr
    rw [show (New h).Create name mode perm
        = (hostUid (New h)).bind
            (fun uid => (New h).createWithUid uid name mode perm) from rfl,
      hostUid_New h] at hr
    simp only [Except.bind] at hr
    exact createWithUid_uid _ _ _ _ _ _ hr
  · intro r hr
    rw [show (New h).Open name mode
        = (hostUid (New h)).bind
            (fun uid => (New h).openWithUid uid name mode) from rfl,
      hostUid_New h] at hr
    simp only [Except.bind] at hr
    exact openWithUid_uid _ _ _ _ _ hr
  · intro fid hf
    exact removeFid_uid _ _ _ _ (hostUid_New h) hf

/-- Witness for `facade_ops_use_host_identity`: creating `/mnt` on a
filesystem owned by `"x"` succeeds and yields a fid owned by `"x"`. -/
theorem facade_ops_use_host_identity_witness :
    ∃ r, (New "x").Create "/mnt" 0 0o644 = Except.ok r ∧
      r.2.uid = (New "x").hostowner := by
  exact ⟨_, rfl, (facade_ops_use_host_identity "x" "/mnt" 0 0o644).2.1 _ rfl⟩

/-- Claim C3 counterexample: `FS.Attach` resolves the identity from the supplied
username, not from the configured host identity — attaching as `"none"`
on a filesystem owned by `"glenda"` yields a fid whose identity is
`"none"`. -/
theorem attach_ignores_host_identity :
    ∃ fid, (New "glenda").Attach "none" "/" = .ok fid ∧
      fid.uid ≠ (New "glenda").hostowner :=
  ⟨freshFid "none" (New "glenda").root, rfl, by decide⟩

/-- Claim C4: identity resolution in `Attach` never fails closed — when the
supplied username is not in the store, the operation proceeds with the
anonymous identity `"none"`, and any failure can only come from the walk
of `aname`. -/
theorem attach_falls_back_to_anonymous (h uname aname : String)
    (hn : (New h).group.get uname = none) :
    (New h).Attach uname aname =
      ((New h).walk (clean aname)).map (freshFid "none") := by
  have hresolve : attachUid (New h).group uname = .ok "none" := by
    unfold attachUid
    rw [hn]
    have hgr : (New h).group = newGroup (if h = "" then "adm" else h) := rfl
    rw [hgr, newGroup_get_none]
  rw [Attach_eq, hresolve]
  cases hw : (New h).walk (clean aname) with
  | ok n => simp [Except.bind, Except.map]
  | error e => simp [Except.bind, Except.map]

/-- Witness for `attach_falls_back_to_anonymous`: `"bob"` is not in the
store of `New "glenda"`, and attaching as `"bob"` at the root succeeds
with identity `"none"`. -/
theorem attach_falls_back_to_anonymous_witness :
    (New "glenda").group.get "bob" = none ∧
      (New "glenda").Attach "bob" "/" =
        ((New "glenda").walk (clean "/")).map (freshFid "none") :=
  ⟨rfl, attach_falls_back_to_anonymous "glenda" "bob" "/" rfl⟩

/-- Claim C7 counterexample: an `aname` that fails to resolve does not always
yield NotFound — walking through the non-directory `/adm/ctl` yields
NotADirectory. -/
theorem attach_error_not_always_notFound :
    (New "x").Attach "u" "/adm/ctl/z" = .error .notADirectory ∧
      Err.notADirectory ≠ Err.notFound :=
  ⟨rfl, by decide⟩

/-- Claim C7 amended: `Attach` walks the cleaned `aname` from the root; when it
does not resolve, the result is a NotFound or NotADirectory error and no
fid; on success the fid is bound to the resolved node, unopened, with fid
number 0. -/
theorem attach_walk_contract (h uname aname : String) :
    (∀ e, (New h).Attach uname aname = .error e →
        e = .notFound ∨ e = .notADirectory)
    ∧ (∀ fid, (New h).Attach uname aname = .ok fid →
        (New h).walk (clean aname) = .ok fid.node ∧
          fid.omode = none ∧ fid.num = 0) := by
  obtain ⟨u, hu⟩ := attachUid_newGroup_ok (if h = "" then "adm" else h) uname
  have hgr : (New h).group = newGroup (if h = "" then "adm" else h) := rfl
  constructor
  · intro e he
    rw [Attach_eq, hgr, hu] at he
    cases hw : (New h).walk (clean aname) with
    | ok n => rw [hw] at he; cases he
    | error e' =>
      rw [hw] at he
      cases he
      exact walkTo_error _ _ _ hw
  · intro fid hf
    rw [Attach_eq, hgr, hu] at hf
    cases hw : (New h).walk (clean aname) with
    | ok n =>
      rw [hw] at hf
      cases hf
      exact ⟨rfl, rfl, rfl⟩
    | error e' => rw [hw] at hf; cases hf

/-- Witness for `attach_walk_contract` at an unresolvable attach name. -/
theorem attach_walk_contract_witness :
    (New "y").Attach "u" "/nope" = Except.error Err.notFound ∧
      (Err.notFound = Err.notFound ∨ Err.notFound = Err.notADirectory) :=
  ⟨rfl, (attach_walk_contract "y" "u" "/nope").1 .notFound rfl⟩

/-- The deterministic list-backed allocator the executable facade uses
refines the relational model of `newPath`: on a duplicate-free reclaim
list, every successful `newPathD` outcome is one of the steps the
unspecified Go map iteration order permits. -/
theorem newPathD_refines_newPathStep (fs : FS) (hnd : fs.pathmap.Nodup)
    (x : ℕ) (fs' : FS) (h : fs.newPathD = .ok (x, fs')) :
    newPathStep ⟨fs.path, fs.pathmap.toFinset⟩ (.ok x)
      ⟨fs'.path, fs'.pathmap.toFinset⟩ := by
  obtain ⟨p, pm, rt, gr, ho⟩ := fs
  cases pm with
  | nil =>
    by_cases hmax : p = maxPath
    · rw [show FS.newPathD ⟨p, [], rt, gr, ho⟩
          = (if p = maxPath then .error .outOfPaths
              else .ok (p, ⟨p + 1, [], rt, gr, ho⟩)) from rfl, if_pos hmax] at h
      cases h
    · rw [show FS.newPathD ⟨p, [], rt, gr, ho⟩
          = (if p = maxPath then .error .outOfPaths
              else .ok (p, ⟨p + 1, [], rt, gr, ho⟩)) from rfl, if_neg hmax] at h
      injection h with h1
      injection h1 with hx hfs
      subst hx
      subst hfs
      simpa using newPathStep.bump ⟨p, ∅⟩ rfl hmax
  | cons y rest =>
    rw [show FS.newPathD ⟨p, y :: rest, rt, gr, ho⟩
        = .ok (y, ⟨p, rest, rt, gr, ho⟩) from rfl] at h
    injection h with h1
    injection h1 with hx hfs
    subst hx
    subst hfs
    have hy : y ∉ rest.toFinset := by
      simpa using (List.nodup_cons.mp hnd).1
    have he : rest.toFinset = ((y :: rest).toFinset).erase y := by
      rw [List.toFinset_cons, Finset.erase_insert hy]
    show newPathStep ⟨p, (y :: rest).toFinset⟩ (.ok y) ⟨p, rest.toFinset⟩
    rw [he]
    exact .reclaim ⟨p, (y :: rest).toFinset⟩ y (by simp)

/-- Witness for `newPathD_refines_newPathStep` at a concrete state with
reclaim list `[7]`. -/
theorem newPathD_refines_newPathStep_witness :
    newPathStep ⟨4, ([7] : List ℕ).toFinset⟩ (.ok 7)
      ⟨4, ([] : List ℕ).toFinset⟩ :=
  newPathD_refines_newPathStep
    { path := 4, pathmap := [7], root := (New "x").root,
      group := newGroup "x", hostowner := "x" }
    (by decide) 7
    { path := 4, pathmap := [], root := (New "x").root,
      group := newGroup "x", hostowner := "x" }
    rfl

end Ramfs
